import Mathlib

/-!
The package `gensrt`: from a speech-recognition response to an SRT caption file.
A shallow embedding of `gensrt.go`.

* The protobuf messages read by the code (`duration.Duration`, `speechpb.WordInfo`,
  `speechpb.SpeechRecognitionAlternative`, `speechpb.SpeechRecognitionResult`,
  `speechpb.LongRunningRecognizeResponse`) are structures holding the fields the code reads.
  A Go pointer is an `Option` (`none` is `nil`); dereferencing `nil` and indexing past the end
  of a slice are panics.
* `int64`/`int32` values are `Int`. The code only divides them by the positive constants
  3600 and 60, so no operation can overflow. Go's `/` and `%` truncate toward zero: `Int.tdiv`
  and `Int.tmod`. The entry counter `count` is a `Nat`: it starts at 1 and grows by one per
  entry, far below the `int` range for any slice that fits in memory.
* The file system, the URI parser and the speech client are oracles passed as arguments.
* The text passed to successive `f.WriteString` calls is recorded as a list of strings; the
  content of `output.srt` is their concatenation.
-/

namespace Gensrt

/-! ## Data model -/

/-- Go `error` value, identified by its message. -/
structure GoError where
  msg : String
deriving DecidableEq, Repr

/-- Protobuf `duration.Duration`: `Seconds` is an `int64`, `Nanos` an `int32`. -/
structure Duration where
  Seconds : Int
  Nanos : Int
deriving DecidableEq, Repr

/-- Protobuf `speechpb.WordInfo`; `StartTime` and `EndTime` are `*duration.Duration`. -/
structure WordInfo where
  StartTime : Option Duration
  EndTime : Option Duration
  Word : String
deriving DecidableEq, Repr

/-- Protobuf `speechpb.SpeechRecognitionAlternative`; `Words` is `[]*WordInfo`. -/
structure SpeechRecognitionAlternative where
  Transcript : String
  Words : List (Option WordInfo)
deriving DecidableEq, Repr

/-- Protobuf `speechpb.SpeechRecognitionResult`; `Alternatives` is a slice of pointers. -/
structure SpeechRecognitionResult where
  Alternatives : List (Option SpeechRecognitionAlternative)
deriving DecidableEq, Repr

/-- Protobuf `speechpb.LongRunningRecognizeResponse`; `Results` is a slice of pointers. -/
structure LongRunningRecognizeResponse where
  Results : List (Option SpeechRecognitionResult)
deriving DecidableEq, Repr

/-- How a call ends: it returns (with the Go `error`, `none` being `nil`) or it panics.
`written` lists the strings handed to `f.WriteString` up to that point, in order. -/
inductive Outcome where
  | returned (written : List String) (err : Option GoError)
  | panicked (written : List String)
deriving DecidableEq, Repr

/-! ## Formatting (`fmt.Sprintf(srtFormat, ...)`) -/

/-- Go `fmt` on a signed integer under the verb `%0<wid>v` (the same as `%0<wid>d`):
the digits of the absolute value are extended on the left with zeros up to `wid` characters,
one less when the value is negative to leave room for the sign, and then the sign is put in
front. Digits beyond `wid` are kept. -/
def fmtZeroPadded (wid : Nat) (v : Int) : String :=
  let negative := decide (v < 0)
  let prec := if negative then wid - 1 else wid
  let digits := Nat.repr v.natAbs
  let body := String.mk (List.replicate (prec - digits.length) '0') ++ digits
  if negative then "-" ++ body else body

/-- The call `fmt.Sprintf(srtFormat, count, sHr, sMin, sSec, sNs, eHr, eMin, eSec, eNs, t)`
with the constant
`srtFormat = "%d\n%02v:%02v:%02v,%03v --> %02v:%02v:%02v,%03v\n<font color=\"#808080\">%v</font>\n"`.
The raw string literal of the source ends right after the line break that follows the
closing font tag. -/
def srtFormat (count : Nat) (sHr sMin sSec sNs eHr eMin eSec eNs : Int)
    (transcript : String) : String :=
  Nat.repr count ++ "\n" ++
  fmtZeroPadded 2 sHr ++ ":" ++ fmtZeroPadded 2 sMin ++ ":" ++ fmtZeroPadded 2 sSec ++ "," ++
  fmtZeroPadded 3 sNs ++ " --> " ++
  fmtZeroPadded 2 eHr ++ ":" ++ fmtZeroPadded 2 eMin ++ ":" ++ fmtZeroPadded 2 eSec ++ "," ++
  fmtZeroPadded 3 eNs ++ "\n" ++
  "<font color=\"#808080\">" ++ transcript ++ "</font>" ++ "\n"

/-! ## `generateSrt` -/

/-- The value of `alt.Words[0]` with `alt` and the word dereferenced; `none` is a panic
(`alt` is nil, `Words` is empty, or the first element is nil). -/
def words0 (alt : Option SpeechRecognitionAlternative) : Option WordInfo :=
  match alt with
  | none => none
  | some a =>
    match a.Words with
    | [] => none
    | none :: _ => none
    | some w :: _ => some w

/-- Lines 136 to 142 for a first word whose times are `st = alt.Words[0].StartTime` and
`en = alt.Words[0].EndTime`, both dereferenced: the string `srtLine`. -/
def formatEntry (count : Nat) (st en : Duration) (transcript : String) : String :=
  let sHr := st.Seconds.tdiv 3600
  let sHrRem := st.Seconds.tmod 3600
  let sMin := sHrRem.tdiv 60
  let sMinRem := sHrRem.tmod 60
  let sSec := sMinRem.tdiv 60
  let sNs := st.Nanos
  let eHr := en.Seconds.tdiv 3600
  let eHrRem := en.Seconds.tmod 3600
  let eMin := eHrRem.tdiv 60
  let eMinRem := eHrRem.tmod 60
  let eSec := eMinRem.tdiv 60
  let eNs := en.Nanos
  srtFormat count sHr sMin sSec sNs eHr eMin eSec eNs transcript

/-- Body of the inner loop up to `fmt.Sprintf` (lines 136 to 142): the string `srtLine`,
or `none` when evaluating the body panics (no first word, or a nil time in it). -/
def srtLine (count : Nat) (alt : Option SpeechRecognitionAlternative) : Option String :=
  match alt, words0 alt with
  | some a, some w =>
    match w.StartTime, w.EndTime with
    | some st, some en => some (formatEntry count st en a.Transcript)
    | _, _ => none
  | _, _ => none

/-- State of the loops on exit: they ran to the end (with the final `count`), or a panic
stopped them. -/
inductive LoopExit where
  | completed (count : Nat) (written : List String)
  | panicked (written : List String)
deriving DecidableEq, Repr

/-- The strings written when the loops stopped. -/
def LoopExit.written : LoopExit → List String
  | .completed _ w => w
  | .panicked w => w

/-- The loop `for _, alt := range result.Alternatives`: each turn formats one entry, writes
it and increments `count`. -/
def rangeAlternatives :
    List (Option SpeechRecognitionAlternative) → Nat → List String → LoopExit
  | [], count, written => .completed count written
  | alt :: rest, count, written =>
    match srtLine count alt with
    | none => .panicked written
    | some line => rangeAlternatives rest (count + 1) (written ++ [line])

/-- The loop `for _, result := range resp.Results`; reading `result.Alternatives` of a nil
`result` panics. -/
def rangeResults :
    List (Option SpeechRecognitionResult) → Nat → List String → LoopExit
  | [], count, written => .completed count written
  | none :: _, _, written => .panicked written
  | some result :: rest, count, written =>
    match rangeAlternatives result.Alternatives count written with
    | .panicked w => .panicked w
    | .completed c w => rangeResults rest c w

/-- The function `generateSrt(resp)`. `createErr` is the error returned by
`os.Create("output.srt")` (`none` when the file was created). The results of
`f.WriteString` are discarded by the source. -/
def generateSrt (createErr : Option GoError)
    (resp : Option LongRunningRecognizeResponse) : Outcome :=
  match createErr with
  | some err => .returned [] (some err)
  | none =>
    match resp with
    | none => .panicked []
    | some r =>
      match rangeResults r.Results 1 [] with
      | .panicked w => .panicked w
      | .completed _ w => .returned w none

/-! ## `NewConfig`, `speechToText`, `ProcessRequest` -/

/-- What `os.Stat(path)` reports: the file is there (`found`); the call fails with an error
of which `os.IsNotExist` holds (`notExist`, ENOENT); the call fails with ENOTDIR because a
component of the path is not a directory (`notDir`: no such file exists, but `os.IsNotExist`
is false of this error); or the call fails for another reason (`otherError`). -/
inductive StatResult where
  | found
  | notExist
  | notDir
  | otherError
deriving DecidableEq, Repr

/-- No file is at the path: `os.Stat` failed with ENOENT or with ENOTDIR. -/
def StatResult.fileAbsent : StatResult → Bool
  | .notExist => true
  | .notDir => true
  | _ => false

/-- The type `RecognitionAudio.AudioSource`: a URI or the inline content. -/
inductive AudioSource where
  | Uri (uri : String)
  | Content (data : List UInt8)
deriving DecidableEq, Repr

/-- The type `speechpb.RecognitionConfig`, with the fields the code sets. -/
structure RecognitionConfig where
  Encoding : Int
  SampleRateHertz : Int
  LanguageCode : String
  EnableWordTimeOffsets : Bool
deriving DecidableEq, Repr

/-- The type `speechpb.LongRunningRecognizeRequest`. -/
structure LongRunningRecognizeRequest where
  Config : RecognitionConfig
  Audio : AudioSource
deriving DecidableEq, Repr

/-- The long-running operation handle: `Wait` gives the response or an error. -/
structure Operation where
  Wait : Except GoError (Option LongRunningRecognizeResponse)

/-- The speech client `*speech.Client`, as the oracle behind `LongRunningRecognize`. -/
structure Client where
  LongRunningRecognize : LongRunningRecognizeRequest → Except GoError Operation

/-- The constant `LINEAR16` of `EncType`. -/
def LINEAR16 : Int := 1

/-- The constant `EnUS` of `LangCodeType`. -/
def EnUS : String := "en-US"

/-- The struct `Config`; `client` is a pointer. -/
structure Config where
  audioPath : String
  languageCode : String
  encoding : Int
  sampleRateHz : Int
  client : Option Client

/-- The world outside the package: `os.Stat`, `speech.NewClient` (keyed by the credentials
file), whether `url.ParseRequestURI` returns a non-nil URL, `ioutil.ReadFile`, and the error
of `os.Create("output.srt")`. -/
structure Env where
  stat : String → StatResult
  newClient : String → Option Client × Option GoError
  parseRequestURI : String → Bool
  readFile : String → Except GoError (List UInt8)
  createErr : Option GoError

/-- The function `fileExists`: false exactly when `os.IsNotExist` holds of the `os.Stat`
error. -/
def fileExists (env : Env) (path : String) : Bool :=
  match env.stat path with
  | .notExist => false
  | _ => true

/-- What `NewConfig` hands back: the named results `cfg` and `err`, and the credentials
paths with which `speech.NewClient` was called. -/
structure NewConfigResult where
  cfg : Option Config
  err : Option GoError
  newClientCalls : List String

/-- The function `NewConfig(audioPath, credentialsFilePath)`. -/
def NewConfig (env : Env) (audioPath credentialsFilePath : String) : NewConfigResult :=
  if !fileExists env audioPath then
    { cfg := none, err := some ⟨"Audio File not exist"⟩, newClientCalls := [] }
  else if !fileExists env credentialsFilePath then
    { cfg := none, err := some ⟨"Credentials File not exist"⟩, newClientCalls := [] }
  else
    let made := env.newClient credentialsFilePath
    { cfg := some { audioPath := audioPath, languageCode := EnUS, encoding := LINEAR16,
                    sampleRateHz := 16000, client := made.1 },
      err := made.2,
      newClientCalls := [credentialsFilePath] }

/-- How `speechToText` ends: with its two results, or in a panic (nil client). -/
inductive Recognition where
  | returned (resp : Option LongRunningRecognizeResponse) (err : Option GoError)
  | panicked
deriving DecidableEq, Repr

/-- The method `cfg.speechToText(isURI)`. -/
def speechToText (env : Env) (cfg : Config) (isURI : Bool) : Recognition :=
  let config : RecognitionConfig :=
    { Encoding := cfg.encoding, SampleRateHertz := cfg.sampleRateHz,
      LanguageCode := cfg.languageCode, EnableWordTimeOffsets := true }
  let audio : Except GoError AudioSource :=
    if isURI then .ok (.Uri cfg.audioPath)
    else
      match env.readFile cfg.audioPath with
      | .error err => .error err
      | .ok data => .ok (.Content data)
  match audio with
  | .error err => .returned none (some err)
  | .ok src =>
    match cfg.client with
    | none => .panicked
    | some client =>
      match client.LongRunningRecognize { Config := config, Audio := src } with
      | .error err => .returned none (some err)
      | .ok op =>
        match op.Wait with
        | .error err => .returned none (some err)
        | .ok resp => .returned resp none

/-- How `ProcessRequest` ends: the recognition step panicked, or `generateSrt` was called
and ended as given. -/
inductive Processed where
  | recognitionPanicked
  | generated (outcome : Outcome)
deriving DecidableEq, Repr

/-- The method `cfg.ProcessRequest()`: the `err` of `speechToText` is overwritten by the
result of `generateSrt(resp)`. -/
def ProcessRequest (env : Env) (cfg : Config) : Processed :=
  let url := env.parseRequestURI cfg.audioPath
  let recognised :=
    if url then speechToText env cfg true else speechToText env cfg false
  match recognised with
  | .panicked => .recognitionPanicked
  | .returned resp _ => .generated (generateSrt env.createErr resp)

/-! ## Vocabulary of the statements -/

/-- The alternatives of a list of results in the order the two loops visit them. -/
def flatAlternatives :
    List (Option SpeechRecognitionResult) → List (Option SpeechRecognitionAlternative)
  | [] => []
  | none :: rest => flatAlternatives rest
  | some result :: rest => result.Alternatives ++ flatAlternatives rest

/-- The alternatives of a response in the order the two loops visit them. -/
def alternativesOf (r : LongRunningRecognizeResponse) :
    List (Option SpeechRecognitionAlternative) :=
  flatAlternatives r.Results

/-- The alternative is not nil and has a first word, not nil, with both times present. -/
def hasTiming (alt : Option SpeechRecognitionAlternative) : Bool :=
  match words0 alt with
  | some w => w.StartTime.isSome && w.EndTime.isSome
  | none => false

/-- No result is nil and every alternative has a first word with both times. -/
def allTimed : List (Option SpeechRecognitionResult) → Bool
  | [] => true
  | none :: _ => false
  | some result :: rest => result.Alternatives.all hasTiming && allTimed rest

/-- Every alternative of the response has a first word with both times present (and no
result is nil): the loop body can be evaluated on each of them. -/
def everyAlternativeTimed (r : LongRunningRecognizeResponse) : Bool :=
  allTimed r.Results

/-- The strings the inner loop writes for the alternatives that have timing, numbered from
`count` (an alternative without timing takes no number here). -/
def linesOf : Nat → List (Option SpeechRecognitionAlternative) → List String
  | _, [] => []
  | count, alt :: rest =>
    match srtLine count alt with
    | some line => line :: linesOf (count + 1) rest
    | none => linesOf count rest

/-- In the words of the specification: a string left-padded with zeros to at least `width`
characters, never shortened. -/
def leftPadZeros (width : Nat) (s : String) : String :=
  if s.length < width then String.mk (List.replicate (width - s.length) '0') ++ s else s

/-- Layout of one timestamp of the timing line: `HH:MM:SS,mmm` from its four fields. -/
def timestampText (hh mm ss frac : String) : String :=
  hh ++ ":" ++ mm ++ ":" ++ ss ++ "," ++ frac

/-- The timestamp the code renders for one time: the fields of lines 136 to 138 (and 139 to
141) under the verbs `%02v`, `%02v`, `%02v`, `%03v`. -/
def timestamp (d : Duration) : String :=
  timestampText (fmtZeroPadded 2 (d.Seconds.tdiv 3600))
    (fmtZeroPadded 2 ((d.Seconds.tmod 3600).tdiv 60))
    (fmtZeroPadded 2 (((d.Seconds.tmod 3600).tmod 60).tdiv 60))
    (fmtZeroPadded 3 d.Nanos)

/-- Layout of one entry from its index line, two timestamps and transcript. -/
def entryText (index start stop transcript : String) : String :=
  index ++ "\n" ++ start ++ " --> " ++ stop ++ "\n" ++
  "<font color=\"#808080\">" ++ transcript ++ "</font>" ++ "\n"

/-! ### Sample inputs -/

/-- A word with both time offsets present. -/
def mkWord (text : String) (s₁ n₁ s₂ n₂ : Int) : Option WordInfo :=
  some { StartTime := some ⟨s₁, n₁⟩, EndTime := some ⟨s₂, n₂⟩, Word := text }

/-- A response holding one result with the given alternatives. -/
def oneResult (alts : List SpeechRecognitionAlternative) : LongRunningRecognizeResponse :=
  { Results := [some { Alternatives := alts.map some }] }

/-- The scenario of the specification: "hello" 0.000s-0.500s, "world" 0.500s-1.200s. -/
def helloWorld : LongRunningRecognizeResponse :=
  oneResult [{ Transcript := "hello world",
               Words := [mkWord "hello" 0 0 0 500000000,
                         mkWord "world" 0 500000000 1 200000000] }]

/-- The alternative of the scenario of the specification. -/
def helloAlternative : SpeechRecognitionAlternative :=
  { Transcript := "hello world",
    Words := [mkWord "hello" 0 0 0 500000000, mkWord "world" 0 500000000 1 200000000] }

/-- A result whose only alternative has no words. -/
def wordlessResult : Option SpeechRecognitionResult :=
  some { Alternatives := [some { Transcript := "", Words := [] }] }

/-- The scenario of the specification followed by a result without words. -/
def helloThenWordless : LongRunningRecognizeResponse :=
  { Results := [some { Alternatives := [some helloAlternative] }, wordlessResult] }

/-- One word from 3661s to 3661s, no fraction. -/
def at3661 : LongRunningRecognizeResponse :=
  oneResult [{ Transcript := "t", Words := [mkWord "t" 3661 0 3661 0] }]

/-- One word at 0s with 250,000,000 nanoseconds in both times. -/
def at250ms : LongRunningRecognizeResponse :=
  oneResult [{ Transcript := "t", Words := [mkWord "t" 0 250000000 0 250000000] }]

/-- Two alternatives of one word each. -/
def twoEntries : LongRunningRecognizeResponse :=
  oneResult [{ Transcript := "a", Words := [mkWord "a" 0 0 0 0] },
             { Transcript := "b", Words := [mkWord "b" 60 0 120 0] }]

/-- An alternative without words, followed by one with a word. -/
def wordlessFirst : LongRunningRecognizeResponse :=
  oneResult [{ Transcript := "", Words := [] },
             { Transcript := "hi", Words := [mkWord "hi" 0 0 0 0] }]

/-- Three results of one alternative each; the middle alternative has no words. -/
def wordlessBetween : LongRunningRecognizeResponse :=
  { Results :=
      [some { Alternatives := [some { Transcript := "a", Words := [mkWord "a" 0 0 0 0] }] },
       some { Alternatives := [some { Transcript := "", Words := [] }] },
       some { Alternatives := [some { Transcript := "b", Words := [mkWord "b" 60 0 120 0] }] }] }

/-- A word whose start is -3600s with 1,000,000,000 nanos and whose end is -1s with -5
nanos. -/
def negativeTimes : LongRunningRecognizeResponse :=
  oneResult [{ Transcript := "x", Words := [mkWord "x" (-3600) 1000000000 (-1) (-5)] }]

/-- A word that starts at 363725s (101h 02m 05s) and ends at 3725s (1h 02m 05s). -/
def lateWord : LongRunningRecognizeResponse :=
  oneResult [{ Transcript := "late", Words := [mkWord "late" 363725 7000000 3725 0] }]

/-- A world where only `key.json` and `test.wav` exist, `test.wav` is not a request URI,
the file can be read and `output.srt` created, and the recognition call fails. -/
def failingService : Env :=
  { stat := fun path => if path = "test.wav" ∨ path = "key.json" then .found else .notExist,
    newClient := fun _ => (some ⟨fun _ => .error ⟨"rpc error"⟩⟩, none),
    parseRequestURI := fun _ => false,
    readFile := fun _ => .ok [],
    createErr := none }

/-- The world of `failingService` seen at the path `test.wav/x`: `test.wav` is a regular
file, so nothing exists at `test.wav/x` and `os.Stat` fails there with ENOTDIR. -/
def nestedPathService : Env :=
  { failingService with
    stat := fun path => if path = "test.wav/x" then .notDir else failingService.stat path }

/-- The configuration `NewConfig("test.wav", "key.json")` builds in `failingService`. -/
def testConfig : Config :=
  { audioPath := "test.wav", languageCode := EnUS, encoding := LINEAR16,
    sampleRateHz := 16000, client := some ⟨fun _ => .error ⟨"rpc error"⟩⟩ }

/-! ## Lemmas on the loop body and the loops -/

theorem srtLine_isSome (count : Nat) (alt : Option SpeechRecognitionAlternative) :
    (srtLine count alt).isSome = hasTiming alt := by
  cases alt with
  | none => simp [srtLine, hasTiming, words0]
  | some a =>
    unfold srtLine hasTiming
    cases hw : words0 (some a) with
    | none => simp
    | some w =>
      cases hs : w.StartTime <;> cases he : w.EndTime <;> simp [hs, he]

theorem srtLine_first_word (count : Nat) (a : SpeechRecognitionAlternative) (w : WordInfo)
    (st en : Duration) (hw : a.Words.head? = some (some w))
    (hs : w.StartTime = some st) (he : w.EndTime = some en) :
    srtLine count (some a) = some (formatEntry count st en a.Transcript) := by
  have h0 : words0 (some a) = some w := by
    unfold words0
    cases hl : a.Words with
    | nil => simp [hl] at hw
    | cons x rest =>
      simp only [hl, List.head?_cons, Option.some.injEq] at hw
      subst hw
      simp [hl]
  simp [srtLine, h0, hs, he]

theorem linesOf_timed_cons (count : Nat) (alt : Option SpeechRecognitionAlternative)
    (rest : List (Option SpeechRecognitionAlternative)) (h : hasTiming alt = true) :
    ∃ line, srtLine count alt = some line ∧
      linesOf count (alt :: rest) = line :: linesOf (count + 1) rest := by
  have hsome : (srtLine count alt).isSome = true := by rw [srtLine_isSome]; exact h
  obtain ⟨line, hline⟩ := Option.isSome_iff_exists.mp hsome
  exact ⟨line, hline, by simp [linesOf, hline]⟩

theorem rangeAlternatives_completed :
    ∀ (alts : List (Option SpeechRecognitionAlternative)) (count : Nat) (written : List String),
      alts.all hasTiming = true →
      rangeAlternatives alts count written
        = .completed (count + alts.length) (written ++ linesOf count alts)
  | [], count, written, _ => by simp [rangeAlternatives, linesOf]
  | alt :: rest, count, written, h => by
    simp only [List.all_cons, Bool.and_eq_true] at h
    obtain ⟨line, hline, hcons⟩ := linesOf_timed_cons count alt rest h.1
    rw [hcons]
    simp only [rangeAlternatives, hline]
    rw [rangeAlternatives_completed rest (count + 1) (written ++ [line]) h.2]
    simp [Nat.add_comm, Nat.add_left_comm]

theorem linesOf_append :
    ∀ (xs ys : List (Option SpeechRecognitionAlternative)) (count : Nat),
      xs.all hasTiming = true →
      linesOf count (xs ++ ys) = linesOf count xs ++ linesOf (count + xs.length) ys
  | [], ys, count, _ => by simp [linesOf]
  | alt :: rest, ys, count, h => by
    simp only [List.all_cons, Bool.and_eq_true] at h
    obtain ⟨line, _, hcons⟩ := linesOf_timed_cons count alt rest h.1
    obtain ⟨line2, hline2, hcons2⟩ := linesOf_timed_cons count alt (rest ++ ys) h.1
    have hEq : line2 = line := by
      rename_i hl
      rw [hl] at hline2
      exact (Option.some.inj hline2).symm
    rw [List.cons_append, hcons2, hcons, linesOf_append rest ys (count + 1) h.2, hEq]
    simp [Nat.add_comm, Nat.add_left_comm]

theorem linesOf_length :
    ∀ (alts : List (Option SpeechRecognitionAlternative)) (count : Nat),
      alts.all hasTiming = true → (linesOf count alts).length = alts.length
  | [], count, _ => by simp [linesOf]
  | alt :: rest, count, h => by
    simp only [List.all_cons, Bool.and_eq_true] at h
    obtain ⟨line, _, hcons⟩ := linesOf_timed_cons count alt rest h.1
    rw [hcons, List.length_cons, List.length_cons, linesOf_length rest (count + 1) h.2]

theorem linesOf_getElem? :
    ∀ (alts : List (Option SpeechRecognitionAlternative)) (count k : Nat)
      (alt : Option SpeechRecognitionAlternative),
      alts.all hasTiming = true → alts[k]? = some alt →
      (linesOf count alts)[k]? = srtLine (count + k) alt
  | [], _, _, _, _, hk => by simp at hk
  | a :: rest, count, 0, alt, h, hk => by
    simp only [List.all_cons, Bool.and_eq_true] at h
    obtain ⟨line, hline, hcons⟩ := linesOf_timed_cons count a rest h.1
    simp only [List.getElem?_cons_zero, Option.some.injEq] at hk
    subst hk
    rw [hcons]
    simp [hline]
  | a :: rest, count, k + 1, alt, h, hk => by
    simp only [List.all_cons, Bool.and_eq_true] at h
    obtain ⟨line, _, hcons⟩ := linesOf_timed_cons count a rest h.1
    simp only [List.getElem?_cons_succ] at hk
    rw [hcons, List.getElem?_cons_succ, linesOf_getElem? rest (count + 1) k alt h.2 hk]
    congr 1
    omega

theorem allTimed_flat :
    ∀ (rs : List (Option SpeechRecognitionResult)),
      allTimed rs = true → (flatAlternatives rs).all hasTiming = true
  | [], _ => by simp [flatAlternatives]
  | none :: _, h => by simp [allTimed] at h
  | some result :: rest, h => by
    simp only [allTimed, Bool.and_eq_true] at h
    simp only [flatAlternatives, List.all_append, Bool.and_eq_true]
    exact ⟨h.1, allTimed_flat rest h.2⟩

theorem rangeResults_completed :
    ∀ (rs : List (Option SpeechRecognitionResult)) (count : Nat) (written : List String),
      allTimed rs = true →
      rangeResults rs count written
        = .completed (count + (flatAlternatives rs).length)
            (written ++ linesOf count (flatAlternatives rs))
  | [], count, written, _ => by simp [rangeResults, flatAlternatives, linesOf]
  | none :: _, _, _, h => by simp [allTimed] at h
  | some result :: rest, count, written, h => by
    simp only [allTimed, Bool.and_eq_true] at h
    simp only [rangeResults, flatAlternatives]
    rw [rangeAlternatives_completed result.Alternatives count written h.1]
    simp only
    rw [rangeResults_completed rest _ _ h.2, linesOf_append _ _ _ h.1]
    simp [Nat.add_assoc]

/-- When every alternative has a first word with both times and the output file is created, `generateSrt` returns nil after
writing one string per alternative. -/
theorem generateSrt_completed (r : LongRunningRecognizeResponse)
    (h : everyAlternativeTimed r = true) :
    generateSrt none (some r) = .returned (linesOf 1 (alternativesOf r)) none := by
  unfold generateSrt
  simp only
  rw [rangeResults_completed r.Results 1 [] h]
  simp [alternativesOf]

theorem fmtZeroPadded_natCast (width n : Nat) :
    fmtZeroPadded width (n : Int) = leftPadZeros width (Nat.repr n) := by
  unfold fmtZeroPadded leftPadZeros
  have hneg : ¬ ((n : Int) < 0) := by omega
  simp only [hneg, decide_False, Bool.false_eq_true, if_false, Int.natAbs_cast]
  by_cases hlt : (Nat.repr n).length < width
  · simp [hlt]
  · have hz : width - (Nat.repr n).length = 0 := by omega
    simp only [hlt, if_false, hz, List.replicate_zero]
    rfl

theorem hours_field (s : Int) (hs : 0 ≤ s) :
    fmtZeroPadded 2 (s.tdiv 3600) = leftPadZeros 2 (Nat.repr (s.toNat / 3600)) := by
  obtain ⟨n, rfl⟩ := Int.eq_ofNat_of_zero_le hs
  rw [← fmtZeroPadded_natCast]
  congr 1

theorem minutes_field (s : Int) (hs : 0 ≤ s) :
    fmtZeroPadded 2 ((s.tmod 3600).tdiv 60)
      = leftPadZeros 2 (Nat.repr (s.toNat % 3600 / 60)) := by
  obtain ⟨n, rfl⟩ := Int.eq_ofNat_of_zero_le hs
  rw [← fmtZeroPadded_natCast]
  congr 1

theorem leftPadZeros_length (width : Nat) (s : String) :
    width ≤ (leftPadZeros width s).length ∧ s.length ≤ (leftPadZeros width s).length := by
  unfold leftPadZeros
  by_cases hlt : s.length < width
  · simp only [hlt, if_true, String.length_append, String.length_mk, List.length_replicate]
    omega
  · simp only [hlt, if_false]
    omega

theorem leftPadZeros_suffix (width : Nat) (s : String) :
    ∃ zeros : List Char, (∀ c ∈ zeros, c = '0') ∧
      (leftPadZeros width s).data = zeros ++ s.data := by
  unfold leftPadZeros
  by_cases hlt : s.length < width
  · refine ⟨List.replicate (width - s.length) '0', ?_, ?_⟩
    · intro c hc
      exact (List.mem_replicate.mp hc).2
    · simp [hlt, String.data_append]
  · exact ⟨[], by simp, by simp [hlt]⟩

theorem formatEntry_layout (count : Nat) (st en : Duration) (transcript : String) :
    formatEntry count st en transcript
      = entryText (Nat.repr count) (timestamp st) (timestamp en) transcript := by
  simp [formatEntry, srtFormat, entryText, timestamp, timestampText, String.append_assoc]

theorem timestamp_of_nonneg (d : Duration) (h : 0 ≤ d.Seconds) :
    timestamp d = timestampText
      (leftPadZeros 2 (Nat.repr (d.Seconds.toNat / 3600)))
      (leftPadZeros 2 (Nat.repr (d.Seconds.toNat % 3600 / 60)))
      (fmtZeroPadded 2 (((d.Seconds.tmod 3600).tmod 60).tdiv 60))
      (fmtZeroPadded 3 d.Nanos) := by
  unfold timestamp
  rw [hours_field d.Seconds h, minutes_field d.Seconds h]

/-- When every alternative has a first word with both times, the string written for the alternative at position `k` is
the entry numbered `k + 1` formatted from the times of that alternative's first word. -/
theorem generateSrt_entry (r : LongRunningRecognizeResponse) (k : Nat)
    (a : SpeechRecognitionAlternative) (w : WordInfo) (st en : Duration)
    (h : everyAlternativeTimed r = true) (hk : (alternativesOf r)[k]? = some (some a))
    (hw : a.Words.head? = some (some w))
    (hs : w.StartTime = some st) (he : w.EndTime = some en) :
    (linesOf 1 (alternativesOf r))[k]? = some (formatEntry (k + 1) st en a.Transcript) := by
  rw [linesOf_getElem? (alternativesOf r) 1 k (some a) (allTimed_flat r.Results h) hk,
    srtLine_first_word (1 + k) a w st en hw hs he, Nat.add_comm]

theorem neg_tmod (y b : Int) : (-y).tmod b = -(y.tmod b) := by
  rw [Int.tmod_def, Int.tmod_def, Int.neg_tdiv]
  ring

/-- The value `sSec = sMinRem/60` is 0 for every `Seconds`: `sMinRem` is a remainder modulo
60. -/
theorem seconds_value_zero (s : Int) : ((s.tmod 3600).tmod 60).tdiv 60 = 0 := by
  generalize s.tmod 3600 = x
  rcases Int.le_total 0 x with hx | hx
  · exact Int.tdiv_eq_zero_of_lt (Int.tmod_nonneg _ hx) (Int.tmod_lt_of_pos _ (by decide))
  · obtain ⟨y, rfl⟩ : ∃ y, x = -y := ⟨-x, by simp⟩
    have hy : 0 ≤ y := by omega
    rw [neg_tmod, Int.neg_tdiv,
      Int.tdiv_eq_zero_of_lt (Int.tmod_nonneg _ hy) (Int.tmod_lt_of_pos _ (by decide))]
    rfl

theorem timestamp_seconds_field (d : Duration) :
    timestamp d = timestampText (fmtZeroPadded 2 (d.Seconds.tdiv 3600))
      (fmtZeroPadded 2 ((d.Seconds.tmod 3600).tdiv 60)) "00" (fmtZeroPadded 3 d.Nanos) := by
  unfold timestamp
  rw [seconds_value_zero]
  rfl

theorem timestamp_fraction_field (d : Duration) (h : 0 ≤ d.Nanos) :
    timestamp d = timestampText (fmtZeroPadded 2 (d.Seconds.tdiv 3600))
      (fmtZeroPadded 2 ((d.Seconds.tmod 3600).tdiv 60))
      (fmtZeroPadded 2 (((d.Seconds.tmod 3600).tmod 60).tdiv 60))
      (leftPadZeros 3 (Nat.repr d.Nanos.toNat)) := by
  unfold timestamp
  obtain ⟨n, hn⟩ := Int.eq_ofNat_of_zero_le h
  rw [hn, fmtZeroPadded_natCast]
  rfl

theorem rangeAlternatives_panicked :
    ∀ (alts : List (Option SpeechRecognitionAlternative)) (count : Nat) (written : List String),
      alts.all hasTiming = false →
      ∃ w, rangeAlternatives alts count written = .panicked w
  | [], _, _, h => by simp at h
  | alt :: rest, count, written, h => by
    cases ht : hasTiming alt with
    | false =>
      have hnone : srtLine count alt = none := by
        have := srtLine_isSome count alt
        rw [ht] at this
        cases hl : srtLine count alt with
        | none => rfl
        | some line => simp [hl] at this
      exact ⟨written, by simp [rangeAlternatives, hnone]⟩
    | true =>
      obtain ⟨line, hline, _⟩ := linesOf_timed_cons count alt rest ht
      have hrest : rest.all hasTiming = false := by
        simpa [List.all_cons, ht] using h
      obtain ⟨w, hw⟩ := rangeAlternatives_panicked rest (count + 1) (written ++ [line]) hrest
      exact ⟨w, by simp only [rangeAlternatives, hline, hw]⟩

theorem rangeResults_panicked :
    ∀ (rs : List (Option SpeechRecognitionResult)) (count : Nat) (written : List String),
      allTimed rs = false → ∃ w, rangeResults rs count written = .panicked w
  | [], _, _, h => by simp [allTimed] at h
  | none :: _, _, written, _ => ⟨written, by simp [rangeResults]⟩
  | some result :: rest, count, written, h => by
    cases ha : result.Alternatives.all hasTiming with
    | false =>
      obtain ⟨w, hw⟩ := rangeAlternatives_panicked result.Alternatives count written ha
      exact ⟨w, by simp only [rangeResults, hw]⟩
    | true =>
      have hrest : allTimed rest = false := by
        simpa [allTimed, ha] using h
      simp only [rangeResults, rangeAlternatives_completed result.Alternatives count written ha]
      exact rangeResults_panicked rest _ _ hrest

/-- With the output file created, `generateSrt` panics as soon as some alternative lacks a
first word with both times. -/
theorem generateSrt_panicked (r : LongRunningRecognizeResponse)
    (h : everyAlternativeTimed r = false) :
    ∃ w, generateSrt none (some r) = .panicked w := by
  obtain ⟨w, hw⟩ := rangeResults_panicked r.Results 1 [] h
  exact ⟨w, by simp only [generateSrt, hw]⟩

theorem wordless_not_timed (r : LongRunningRecognizeResponse)
    (a : SpeechRecognitionAlternative) (hmem : some a ∈ alternativesOf r)
    (hw : a.Words = []) : everyAlternativeTimed r = false := by
  cases ht : everyAlternativeTimed r with
  | false => rfl
  | true =>
    have hall := allTimed_flat r.Results ht
    have := List.all_eq_true.mp hall (some a) hmem
    simp [hasTiming, words0, hw] at this

theorem ProcessRequest_unfold (env : Env) (cfg : Config)
    (resp : Option LongRunningRecognizeResponse) (err : Option GoError)
    (h : speechToText env cfg (env.parseRequestURI cfg.audioPath) = .returned resp err) :
    ProcessRequest env cfg = .generated (generateSrt env.createErr resp) := by
  unfold ProcessRequest
  cases hu : env.parseRequestURI cfg.audioPath <;> rw [hu] at h <;> simp [h]

theorem rangeAlternatives_extends :
    ∀ (alts : List (Option SpeechRecognitionAlternative)) (count : Nat) (written : List String),
      ∃ more, (rangeAlternatives alts count written).written = written ++ more
  | [], _, written => ⟨[], by simp [rangeAlternatives, LoopExit.written]⟩
  | alt :: rest, count, written => by
    cases hl : srtLine count alt with
    | none => exact ⟨[], by simp [rangeAlternatives, hl, LoopExit.written]⟩
    | some line =>
      obtain ⟨more, hmore⟩ := rangeAlternatives_extends rest (count + 1) (written ++ [line])
      exact ⟨line :: more, by simp [rangeAlternatives, hl, hmore]⟩

theorem rangeResults_extends :
    ∀ (rs : List (Option SpeechRecognitionResult)) (count : Nat) (written : List String),
      ∃ more, (rangeResults rs count written).written = written ++ more
  | [], _, written => ⟨[], by simp [rangeResults, LoopExit.written]⟩
  | none :: _, _, written => ⟨[], by simp [rangeResults, LoopExit.written]⟩
  | some result :: rest, count, written => by
    obtain ⟨m₁, h₁⟩ := rangeAlternatives_extends result.Alternatives count written
    cases hin : rangeAlternatives result.Alternatives count written with
    | panicked w =>
      rw [hin] at h₁
      exact ⟨m₁, by simpa [rangeResults, hin, LoopExit.written] using h₁⟩
    | completed c w =>
      rw [hin] at h₁
      simp only [LoopExit.written] at h₁
      obtain ⟨m₂, h₂⟩ := rangeResults_extends rest c w
      refine ⟨m₁ ++ m₂, ?_⟩
      simp only [rangeResults, hin]
      rw [h₂, h₁, List.append_assoc]

theorem rangeAlternatives_append :
    ∀ (xs ys : List (Option SpeechRecognitionAlternative)) (count : Nat)
      (written : List String), xs.all hasTiming = true →
      rangeAlternatives (xs ++ ys) count written
        = rangeAlternatives ys (count + xs.length) (written ++ linesOf count xs)
  | [], ys, count, written, _ => by simp [linesOf]
  | alt :: rest, ys, count, written, h => by
    simp only [List.all_cons, Bool.and_eq_true] at h
    obtain ⟨line, hline, hcons⟩ := linesOf_timed_cons count alt rest h.1
    rw [hcons, List.cons_append]
    simp only [rangeAlternatives, hline]
    rw [rangeAlternatives_append rest ys (count + 1) (written ++ [line]) h.2]
    simp [Nat.add_comm, Nat.add_left_comm]

theorem rangeResults_append :
    ∀ (pre rest : List (Option SpeechRecognitionResult)) (count : Nat)
      (written : List String), allTimed pre = true →
      rangeResults (pre ++ rest) count written
        = rangeResults rest (count + (flatAlternatives pre).length)
            (written ++ linesOf count (flatAlternatives pre))
  | [], rest, count, written, _ => by simp [flatAlternatives, linesOf]
  | none :: _, _, _, _, h => by simp [allTimed] at h
  | some result :: pre, rest, count, written, h => by
    simp only [allTimed, Bool.and_eq_true] at h
    rw [List.cons_append]
    show (match rangeAlternatives result.Alternatives count written with
      | .panicked w => LoopExit.panicked w
      | .completed c w => rangeResults (pre ++ rest) c w) = _
    rw [rangeAlternatives_completed result.Alternatives count written h.1]
    simp only [flatAlternatives]
    rw [rangeResults_append pre rest _ _ h.2, linesOf_append _ _ _ h.1]
    simp [Nat.add_assoc]

theorem rangeAlternatives_reaches
    (before after : List (Option SpeechRecognitionAlternative))
    (a : SpeechRecognitionAlternative) (w : WordInfo) (st en : Duration)
    (count : Nat) (written : List String)
    (hbefore : before.all hasTiming = true) (hw : a.Words.head? = some (some w))
    (hs : w.StartTime = some st) (he : w.EndTime = some en) :
    ∃ more, (rangeAlternatives (before ++ some a :: after) count written).written
      = written ++ linesOf count before
          ++ [formatEntry (count + before.length) st en a.Transcript] ++ more := by
  have hline := srtLine_first_word (count + before.length) a w st en hw hs he
  obtain ⟨more, hmore⟩ := rangeAlternatives_extends after (count + before.length + 1)
    (written ++ linesOf count before
      ++ [formatEntry (count + before.length) st en a.Transcript])
  refine ⟨more, ?_⟩
  rw [rangeAlternatives_append before _ count written hbefore]
  simp only [rangeAlternatives, hline]
  exact hmore

/-- An alternative with a first word and both times, reached by the loops because everything
before it has timing, gets its entry written at its position, whatever comes after it. -/
theorem rangeResults_reaches (pre post : List (Option SpeechRecognitionResult))
    (result : SpeechRecognitionResult)
    (before after : List (Option SpeechRecognitionAlternative))
    (a : SpeechRecognitionAlternative) (w : WordInfo) (st en : Duration)
    (hpre : allTimed pre = true) (hres : result.Alternatives = before ++ some a :: after)
    (hbefore : before.all hasTiming = true) (hw : a.Words.head? = some (some w))
    (hs : w.StartTime = some st) (he : w.EndTime = some en) :
    ((rangeResults (pre ++ some result :: post) 1 []).written)[
        (flatAlternatives pre).length + before.length]?
      = some (formatEntry ((flatAlternatives pre).length + before.length + 1) st en
          a.Transcript) := by
  have hcount : 1 + (flatAlternatives pre).length + before.length
      = (flatAlternatives pre).length + before.length + 1 := by omega
  obtain ⟨m₀, h₀⟩ := rangeAlternatives_reaches before after a w st en
    (1 + (flatAlternatives pre).length) (linesOf 1 (flatAlternatives pre)) hbefore hw hs he
  rw [← hres, hcount] at h₀
  have hlen : (linesOf 1 (flatAlternatives pre)
      ++ linesOf (1 + (flatAlternatives pre).length) before).length
      = (flatAlternatives pre).length + before.length := by
    rw [List.length_append, linesOf_length _ _ (allTimed_flat pre hpre),
      linesOf_length _ _ hbefore]
  have hget : ∀ more : List String,
      (linesOf 1 (flatAlternatives pre)
        ++ linesOf (1 + (flatAlternatives pre).length) before
        ++ [formatEntry ((flatAlternatives pre).length + before.length + 1) st en
              a.Transcript] ++ more)[(flatAlternatives pre).length + before.length]?
      = some (formatEntry ((flatAlternatives pre).length + before.length + 1) st en
          a.Transcript) := by
    intro more
    rw [List.append_assoc, List.getElem?_append_right (by omega), hlen]
    simp
  rw [rangeResults_append pre _ 1 [] hpre]
  simp only [List.nil_append]
  show ((match rangeAlternatives result.Alternatives (1 + (flatAlternatives pre).length)
        (linesOf 1 (flatAlternatives pre)) with
      | .panicked w => LoopExit.panicked w
      | .completed c w => rangeResults post c w).written)[_]? = _
  cases hex : rangeAlternatives result.Alternatives (1 + (flatAlternatives pre).length)
      (linesOf 1 (flatAlternatives pre)) with
  | panicked w' =>
    rw [hex] at h₀
    simp only [LoopExit.written] at h₀ ⊢
    rw [h₀]
    exact hget m₀
  | completed c' w' =>
    rw [hex] at h₀
    simp only [LoopExit.written] at h₀
    obtain ⟨m₁, h₁⟩ := rangeResults_extends post c' w'
    simp only
    rw [h₁, h₀, List.append_assoc _ m₀ m₁]
    exact hget (m₀ ++ m₁)

theorem generateSrt_written (r : LongRunningRecognizeResponse) :
    generateSrt none (some r) = .returned (rangeResults r.Results 1 []).written none ∨
    generateSrt none (some r) = .panicked (rangeResults r.Results 1 []).written := by
  unfold generateSrt
  cases h : rangeResults r.Results 1 [] <;> simp [LoopExit.written, h]

/-! ## The claims -/

/-- Claim C1, as stated, fails: in the scenario "hello" 0.000s-0.500s, "world"
0.500s-1.200s the entry written ends at the first word's end (nanos 500000000), and is not
the entry formatted from the first word's start and the last word's end (1.200s), whose
timing line would hold the timestamp of 0.000s before the arrow and that of 1.200s after
it. -/
theorem generateSrt_helloWorld_end_not_last_word :
    generateSrt none (some helloWorld) = .returned
      ["1\n00:00:00,000 --> 00:00:00,500000000\n<font color=\"#808080\">hello world</font>\n"]
      none
    ∧ generateSrt none (some helloWorld)
        ≠ .returned [formatEntry 1 ⟨0, 0⟩ ⟨1, 200000000⟩ "hello world"] none
    ∧ generateSrt none (some helloWorld)
        ≠ .returned [entryText (Nat.repr 1) (timestamp ⟨0, 0⟩) (timestamp ⟨1, 200000000⟩)
            "hello world"] none := by
  decide

/-- Claim C1, amended: with `output.srt` created, take any alternative that has a first word
with both times present and that the loops reach (no result before it is nil and every
alternative before it has a first word with both times). `generateSrt` writes its entry at
its position, whether or not a later alternative makes the call panic: the index line is the
position plus one, the timestamp before the arrow is the one of the FIRST word's `StartTime`,
the timestamp after the arrow is the one of the FIRST word's `EndTime`, and the text line
holds the transcript. When every alternative of the response has such a first word the call
returns nil. -/
theorem generateSrt_times_from_first_word
    (pre post : List (Option SpeechRecognitionResult)) (result : SpeechRecognitionResult)
    (before after : List (Option SpeechRecognitionAlternative))
    (a : SpeechRecognitionAlternative) (w : WordInfo) (st en : Duration)
    (hpre : allTimed pre = true) (hres : result.Alternatives = before ++ some a :: after)
    (hbefore : before.all hasTiming = true) (hw : a.Words.head? = some (some w))
    (hs : w.StartTime = some st) (he : w.EndTime = some en) :
    ∃ written,
      (generateSrt none (some { Results := pre ++ some result :: post })
          = .returned written none ∨
        generateSrt none (some { Results := pre ++ some result :: post })
          = .panicked written) ∧
      written[(flatAlternatives pre).length + before.length]?
        = some (entryText (Nat.repr ((flatAlternatives pre).length + before.length + 1))
            (timestamp st) (timestamp en) a.Transcript) ∧
      (everyAlternativeTimed { Results := pre ++ some result :: post } = true →
        generateSrt none (some { Results := pre ++ some result :: post })
          = .returned written none) := by
  refine ⟨(rangeResults (pre ++ some result :: post) 1 []).written,
    generateSrt_written { Results := pre ++ some result :: post }, ?_, ?_⟩
  · rw [rangeResults_reaches pre post result before after a w st en hpre hres hbefore hw hs he,
      formatEntry_layout]
  · intro hall
    have hdone := generateSrt_completed { Results := pre ++ some result :: post } hall
    rcases generateSrt_written { Results := pre ++ some result :: post } with h | h
    · exact h
    · rw [h] at hdone
      simp at hdone

/-- Witness of C1 amended: the scenario of the specification, followed by a result whose
alternative has no words. The entry of "hello world" is written, numbered 1, with the start
of "hello" before the arrow and the end of "hello" (not of "world") after it. -/
theorem generateSrt_times_from_first_word_witness :
    ∃ written,
      (generateSrt none (some helloThenWordless) = .returned written none ∨
        generateSrt none (some helloThenWordless) = .panicked written) ∧
      written[0]? = some
        "1\n00:00:00,000 --> 00:00:00,500000000\n<font color=\"#808080\">hello world</font>\n" := by
  obtain ⟨written, hrun, hentry, _⟩ := generateSrt_times_from_first_word []
    [wordlessResult] { Alternatives := [some helloAlternative] } [] [] helloAlternative
    { StartTime := some ⟨0, 0⟩, EndTime := some ⟨0, 500000000⟩, Word := "hello" }
    ⟨0, 0⟩ ⟨0, 500000000⟩ (by decide) rfl (by decide) (by decide) rfl rfl
  refine ⟨written, hrun, ?_⟩
  have hpos : (flatAlternatives []).length
      + ([] : List (Option SpeechRecognitionAlternative)).length = 0 := rfl
  rw [hpos] at hentry
  rw [hentry]
  decide

/-- Claim C2 fails on the code: for a word at 3661 whole seconds the seconds field written
is 00, where (3661 mod 3600) mod 60 = 1 asks for 01; and the seconds field of the timestamp
of every time is 00. -/
theorem generateSrt_seconds_field_3661 :
    generateSrt none (some at3661) = .returned
      ["1\n01:01:00,000 --> 01:01:00,000\n<font color=\"#808080\">t</font>\n"] none
    ∧ (∀ (count : Nat) (st en : Duration) (transcript : String),
        formatEntry count st en transcript
          = entryText (Nat.repr count) (timestamp st) (timestamp en) transcript)
    ∧ ∀ d : Duration,
        timestamp d = timestampText (fmtZeroPadded 2 (d.Seconds.tdiv 3600))
          (fmtZeroPadded 2 ((d.Seconds.tmod 3600).tdiv 60)) "00" (fmtZeroPadded 3 d.Nanos) :=
  ⟨by decide, formatEntry_layout, timestamp_seconds_field⟩

/-- Claim C3 fails on the code: for nanos = 250,000,000 the fraction field written is the
nanosecond count 250000000 itself, not the three digits 250; and for every time with
non-negative `Nanos` the fraction field is the decimal of `Nanos`, left-padded with zeros to
at least three characters. -/
theorem generateSrt_fraction_field_250ms :
    generateSrt none (some at250ms) = .returned
      ["1\n00:00:00,250000000 --> 00:00:00,250000000\n<font color=\"#808080\">t</font>\n"]
      none
    ∧ ∀ d : Duration, 0 ≤ d.Nanos →
        timestamp d = timestampText (fmtZeroPadded 2 (d.Seconds.tdiv 3600))
          (fmtZeroPadded 2 ((d.Seconds.tmod 3600).tdiv 60))
          (fmtZeroPadded 2 (((d.Seconds.tmod 3600).tmod 60).tdiv 60))
          (leftPadZeros 3 (Nat.repr d.Nanos.toNat)) :=
  ⟨by decide, timestamp_fraction_field⟩

/-- Claim C4 fails on the code: each entry written is three lines (index, timing, text) with
no empty line after them, so in the document of two entries the index line of the second
entry directly follows the text line of the first. -/
theorem generateSrt_no_blank_line_between_entries :
    generateSrt none (some twoEntries) = .returned
      ["1\n00:00:00,000 --> 00:00:00,000\n<font color=\"#808080\">a</font>\n",
       "2\n00:01:00,000 --> 00:02:00,000\n<font color=\"#808080\">b</font>\n"] none
    ∧ ∀ (count : Nat) (st en : Duration) (transcript : String),
        formatEntry count st en transcript
          = Nat.repr count ++ "\n" ++ timestamp st ++ " --> " ++ timestamp en ++ "\n" ++
            "<font color=\"#808080\">" ++ transcript ++ "</font>" ++ "\n" :=
  ⟨by decide, formatEntry_layout⟩

/-- Claim C5 fails on the code: on a response whose first alternative has an empty word list
`generateSrt` panics at `alt.Words[0]` and writes nothing, the entry of the alternative that
follows included; and on every response that holds an alternative with an empty word list
`generateSrt` ends in a panic. -/
theorem generateSrt_wordless_alternative_panics :
    generateSrt none (some wordlessFirst) = .panicked []
    ∧ ∀ (r : LongRunningRecognizeResponse) (a : SpeechRecognitionAlternative),
        some a ∈ alternativesOf r → a.Words = [] →
        ∃ w, generateSrt none (some r) = .panicked w :=
  ⟨by decide, fun r a hmem hw => generateSrt_panicked r (wordless_not_timed r a hmem hw)⟩

/-- Claim C6 fails on the code: with a word-less alternative between two alternatives that
have words, `generateSrt` writes entry 1 and then panics; entry 2 is never written. (The
part on a response without results holds: nothing is written and nil is returned.) -/
theorem generateSrt_indices_stop_at_wordless :
    generateSrt none (some wordlessBetween) = .panicked
      ["1\n00:00:00,000 --> 00:00:00,000\n<font color=\"#808080\">a</font>\n"]
    ∧ generateSrt none (some { Results := [] }) = .returned [] none := by
  decide

/-- Claim C7, as stated, fails: for a word whose start has -3600 seconds and 1,000,000,000
nanos and whose end has -1 seconds and -5 nanos, `generateSrt` returns a nil error and
writes a caption for these times. -/
theorem generateSrt_negative_times_no_error :
    generateSrt none (some negativeTimes) = .returned
      ["1\n-1:00:00,1000000000 --> 00:00:00,-05\n<font color=\"#808080\">x</font>\n"]
      none := by
  decide

/-- Claim C7, amended: `generateSrt` does not validate times. When `output.srt` is created
and every alternative has a first word with both times present, whatever their seconds and
nanos, it returns a nil error after writing one entry per alternative; and the only error
`generateSrt` ever returns is the one of `os.Create`. -/
theorem generateSrt_no_duration_error (r : LongRunningRecognizeResponse)
    (h : everyAlternativeTimed r = true) :
    (∃ written, generateSrt none (some r) = .returned written none ∧
      written.length = (alternativesOf r).length) ∧
    ∀ (createErr : Option GoError) (resp : Option LongRunningRecognizeResponse)
      (written : List String) (e : GoError),
      generateSrt createErr resp = .returned written (some e) → createErr = some e := by
  refine ⟨⟨linesOf 1 (alternativesOf r), generateSrt_completed r h,
    linesOf_length _ 1 (allTimed_flat r.Results h)⟩, ?_⟩
  intro createErr resp written e hret
  unfold generateSrt at hret
  cases createErr with
  | some err =>
    simp only [Outcome.returned.injEq, Option.some.injEq] at hret
    rw [hret.2]
  | none =>
    cases resp with
    | none => simp at hret
    | some r' =>
      simp only at hret
      cases hloop : rangeResults r'.Results 1 [] <;> simp [hloop] at hret

/-- Witness of C7 amended: the response with negative seconds and out-of-range nanos. -/
theorem generateSrt_no_duration_error_witness :
    everyAlternativeTimed negativeTimes = true ∧
    ((∃ written, generateSrt none (some negativeTimes) = .returned written none ∧
      written.length = (alternativesOf negativeTimes).length) ∧
    ∀ (createErr : Option GoError) (resp : Option LongRunningRecognizeResponse)
      (written : List String) (e : GoError),
      generateSrt createErr resp = .returned written (some e) → createErr = some e) :=
  ⟨by decide, generateSrt_no_duration_error negativeTimes (by decide)⟩

/-- Claim C8: when `output.srt` is created and every alternative has a first word with both
times present, the entry written for the alternative at position `k` is laid out from the
timestamps of that word's start and end; and for any time with non-negative `Seconds` the
hours field of its timestamp is the decimal of `Seconds / 3600` and the minutes field the
decimal of `(Seconds mod 3600) / 60`, each left-padded with zeros to at least two characters
and never shortened. -/
theorem generateSrt_hours_minutes_fields (r : LongRunningRecognizeResponse) (k : Nat)
    (a : SpeechRecognitionAlternative) (w : WordInfo) (st en : Duration)
    (h : everyAlternativeTimed r = true) (hk : (alternativesOf r)[k]? = some (some a))
    (hw : a.Words.head? = some (some w))
    (hs : w.StartTime = some st) (he : w.EndTime = some en) :
    (∃ written, generateSrt none (some r) = .returned written none ∧
      written[k]? = some
        (entryText (Nat.repr (k + 1)) (timestamp st) (timestamp en) a.Transcript)) ∧
    (∀ d : Duration, 0 ≤ d.Seconds →
      timestamp d = timestampText
        (leftPadZeros 2 (Nat.repr (d.Seconds.toNat / 3600)))
        (leftPadZeros 2 (Nat.repr (d.Seconds.toNat % 3600 / 60)))
        (fmtZeroPadded 2 (((d.Seconds.tmod 3600).tmod 60).tdiv 60))
        (fmtZeroPadded 3 d.Nanos)) ∧
    (∀ n : Nat, 2 ≤ (leftPadZeros 2 (Nat.repr n)).length ∧
      ∃ zeros : List Char, (∀ c ∈ zeros, c = '0') ∧
        (leftPadZeros 2 (Nat.repr n)).data = zeros ++ (Nat.repr n).data) := by
  refine ⟨⟨linesOf 1 (alternativesOf r), generateSrt_completed r h, ?_⟩, ?_, ?_⟩
  · rw [generateSrt_entry r k a w st en h hk hw hs he, formatEntry_layout]
  · exact fun d hd => timestamp_of_nonneg d hd
  · exact fun n => ⟨(leftPadZeros_length 2 (Nat.repr n)).1, leftPadZeros_suffix 2 (Nat.repr n)⟩

/-- Witness of C8: a word that starts at 363725s; its hours field has the three digits 101
and its minutes field is 02. -/
theorem generateSrt_hours_minutes_fields_witness :
    everyAlternativeTimed lateWord = true ∧
    ((∃ written, generateSrt none (some lateWord) = .returned written none ∧
      written[0]? = some
        (entryText (Nat.repr (0 + 1)) (timestamp ⟨363725, 7000000⟩) (timestamp ⟨3725, 0⟩)
          "late")) ∧
    (∀ d : Duration, 0 ≤ d.Seconds →
      timestamp d = timestampText
        (leftPadZeros 2 (Nat.repr (d.Seconds.toNat / 3600)))
        (leftPadZeros 2 (Nat.repr (d.Seconds.toNat % 3600 / 60)))
        (fmtZeroPadded 2 (((d.Seconds.tmod 3600).tmod 60).tdiv 60))
        (fmtZeroPadded 3 d.Nanos)) ∧
    (∀ n : Nat, 2 ≤ (leftPadZeros 2 (Nat.repr n)).length ∧
      ∃ zeros : List Char, (∀ c ∈ zeros, c = '0') ∧
        (leftPadZeros 2 (Nat.repr n)).data = zeros ++ (Nat.repr n).data)) ∧
    timestamp ⟨363725, 7000000⟩ = "101:02:00,7000000" :=
  ⟨by decide,
    generateSrt_hours_minutes_fields lateWord 0
      { Transcript := "late", Words := [mkWord "late" 363725 7000000 3725 0] }
      { StartTime := some ⟨363725, 7000000⟩, EndTime := some ⟨3725, 0⟩, Word := "late" }
      ⟨363725, 7000000⟩ ⟨3725, 0⟩ (by decide) (by decide) (by decide) rfl rfl,
    by decide⟩

/-- Claim C9, as stated, fails: nothing exists at `test.wav/x` (`test.wav` is a regular
file), but `os.Stat` fails there with ENOTDIR, of which `os.IsNotExist` is false; so
`fileExists` is true and `NewConfig("test.wav/x", "key.json")` calls `speech.NewClient` and
returns a non-nil `Config` with a nil error. -/
theorem NewConfig_absent_file_not_reported :
    (nestedPathService.stat "test.wav/x").fileAbsent = true ∧
    fileExists nestedPathService "test.wav/x" = true ∧
    (NewConfig nestedPathService "test.wav/x" "key.json").cfg.isSome = true ∧
    (NewConfig nestedPathService "test.wav/x" "key.json").err = none ∧
    (NewConfig nestedPathService "test.wav/x" "key.json").newClientCalls = ["key.json"] := by
  decide

/-- Claim C9, amended: whatever the paths and the file system, if `os.Stat` fails on the
audio path or on the credentials path with an error of which `os.IsNotExist` holds,
`NewConfig` returns a nil `Config` and a non-nil error, and `speech.NewClient` is not
called. -/
theorem NewConfig_missing_file (env : Env) (audioPath credentialsFilePath : String)
    (h : env.stat audioPath = .notExist ∨ env.stat credentialsFilePath = .notExist) :
    (NewConfig env audioPath credentialsFilePath).cfg = none ∧
    (NewConfig env audioPath credentialsFilePath).err ≠ none ∧
    (NewConfig env audioPath credentialsFilePath).newClientCalls = [] := by
  unfold NewConfig
  by_cases ha : fileExists env audioPath = true
  · have hc : fileExists env credentialsFilePath = false := by
      rcases h with h | h
      · simp [fileExists, h] at ha
      · simp [fileExists, h]
    simp [ha, hc]
  · simp [ha]

/-- Witness of C9: the two failure cases of the tests, an empty audio path and an empty
credentials path, in a world where only `test.wav` and `key.json` exist. -/
theorem NewConfig_missing_file_witness :
    ((failingService.stat "" = .notExist ∨ failingService.stat "key.json" = .notExist) ∧
      (NewConfig failingService "" "key.json").cfg = none ∧
      (NewConfig failingService "" "key.json").err ≠ none ∧
      (NewConfig failingService "" "key.json").newClientCalls = []) ∧
    ((failingService.stat "test.wav" = .notExist ∨ failingService.stat "" = .notExist) ∧
      (NewConfig failingService "test.wav" "").cfg = none ∧
      (NewConfig failingService "test.wav" "").err ≠ none ∧
      (NewConfig failingService "test.wav" "").newClientCalls = []) :=
  ⟨⟨Or.inl (by decide), NewConfig_missing_file failingService "" "key.json" (Or.inl (by decide))⟩,
    ⟨Or.inr (by decide),
      NewConfig_missing_file failingService "test.wav" "" (Or.inr (by decide))⟩⟩

/-- Claim C10 fails on the code: when the recognition call fails, `speechToText` returns a
nil response and a non-nil error, and `ProcessRequest` still calls `generateSrt` on the nil
response, which panics after `output.srt` was created; the error is not returned. In every
world, after a failed recognition step `ProcessRequest` ends as `generateSrt` does on the nil
response. -/
theorem ProcessRequest_recognition_error_dropped :
    speechToText failingService testConfig (failingService.parseRequestURI testConfig.audioPath)
      = .returned none (some ⟨"rpc error"⟩) ∧
    ProcessRequest failingService testConfig = .generated (.panicked [])
    ∧ ∀ (env : Env) (cfg : Config) (e : GoError),
        speechToText env cfg (env.parseRequestURI cfg.audioPath) = .returned none (some e) →
        ProcessRequest env cfg = .generated (generateSrt env.createErr none) :=
  ⟨by decide, by decide, fun env cfg e h => ProcessRequest_unfold env cfg none (some e) h⟩

end Gensrt
